import Mathlib

/-!
# Verification of the Afro-Nyanka Tours analytics engine

Shallow embedding of the analytics aggregation and caching engine
(`src/services/analytics_service.py` and `src/api/routes/analytics.py`)
together with proofs about the claims of the specification.

Modelling conventions:
* SQL tables are Lean lists of structures matching the SQLAlchemy models.
* A SQL `COUNT`/`GROUP BY`/window query is translated into the list
  expression with the same semantics, written next to the query it embeds.
* Python exact arithmetic and `round(x, n)` are modelled on `ℚ` with
  half-to-even rounding (Python's documented rounding mode).
* A datetime carries both its calendar fields (`year`, `month`, used by the
  SQL `extract` calls) and its date as an absolute day number (used by the
  `.date()` subtraction); these are two redundant views of one instant,
  carried explicitly instead of implementing calendar conversion.
-/

namespace TourAnalytics

/-- Python's `round` to an integer: round half to even (banker's rounding). -/
def pyRound (q : ℚ) : ℤ :=
  let f := ⌊q⌋
  let r := q - f
  if r < 1/2 then f
  else if 1/2 < r then f + 1
  else if Even f then f else f + 1

/-- Python's `round(x, 2)`. -/
def round2 (q : ℚ) : ℚ := (pyRound (100 * q) : ℚ) / 100

/-- Python's `round(x, 1)`. -/
def round1 (q : ℚ) : ℚ := (pyRound (10 * q) : ℚ) / 10

theorem pyRound_ge_floor (q : ℚ) : (⌊q⌋ : ℤ) ≤ pyRound q := by
  unfold pyRound
  dsimp only
  split_ifs <;> omega

theorem pyRound_le_ceil (q : ℚ) : pyRound q ≤ ⌈q⌉ := by
  unfold pyRound
  dsimp only
  have hfc : (⌊q⌋ : ℤ) ≤ ⌈q⌉ := Int.floor_le_ceil q
  split_ifs with h1 h2 h3
  · exact hfc
  · -- here q - ⌊q⌋ > 1/2 > 0, so ⌊q⌋ < q and hence ⌊q⌋ + 1 ≤ ⌈q⌉
    have hq : (⌊q⌋ : ℚ) < q := by
      have := Int.floor_le q
      nlinarith [h2]
    have := Int.lt_ceil.mpr hq
    omega
  · exact hfc
  · have hq : (⌊q⌋ : ℚ) < q := by
      have h12 : (1:ℚ)/2 ≤ q - ⌊q⌋ := le_of_not_lt h1
      nlinarith
    have := Int.lt_ceil.mpr hq
    omega

theorem round2_zero : round2 0 = 0 := by
  have : pyRound 0 = 0 := by
    unfold pyRound
    norm_num
  simp [round2, this]

/-- If `a ≤ q ≤ b` with integer endpoints, rounding to one decimal stays
in `[a, b]` (the endpoints are multiples of `1/10`). -/
theorem round1_mem_Icc {a b : ℤ} {q : ℚ} (ha : (a : ℚ) ≤ q) (hb : q ≤ (b : ℚ)) :
    (a : ℚ) ≤ round1 q ∧ round1 q ≤ (b : ℚ) := by
  have h1 : (10 * a : ℤ) ≤ ⌊(10 : ℚ) * q⌋ := by
    rw [Int.le_floor]
    push_cast
    nlinarith
  have h2 : ⌈(10 : ℚ) * q⌉ ≤ (10 * b : ℤ) := by
    rw [Int.ceil_le]
    push_cast
    nlinarith
  have hlo := pyRound_ge_floor (10 * q)
  have hhi := pyRound_le_ceil (10 * q)
  constructor
  · rw [round1, le_div_iff₀ (by norm_num : (0:ℚ) < 10)]
    have h3 : (10 * a : ℤ) ≤ pyRound (10 * q) := le_trans h1 hlo
    have h4 : ((10 * a : ℤ) : ℚ) ≤ ((pyRound (10 * q) : ℤ) : ℚ) := by exact_mod_cast h3
    push_cast at h4
    linarith
  · rw [round1, div_le_iff₀ (by norm_num : (0:ℚ) < 10)]
    have h3 : pyRound (10 * q) ≤ (10 * b : ℤ) := le_trans hhi h2
    have h4 : ((pyRound (10 * q) : ℤ) : ℚ) ≤ ((10 * b : ℤ) : ℚ) := by exact_mod_cast h3
    push_cast at h4
    linarith

/-! ## Data model (`src/models/models.py`, analytics-relevant fields) -/

/-- A row of the `bookings` table.  `createdYear`/`createdMonth` are the
values of `extract('year'/'month', created_at)`; `createdDay` is
`created_at.date()` as an absolute day number, and `preferredDate` is
`preferred_date.date()` as an absolute day number (or `none` for SQL NULL). -/
structure Booking where
  id : ℕ
  customerEmail : String
  customerAge : Option ℤ
  customerCountry : Option String
  preferredDate : Option ℤ
  createdDay : ℤ
  createdYear : ℤ
  createdMonth : ℕ
  deriving Repr, DecidableEq

/-- A row of the `tours` table (analytics-relevant fields). -/
structure Tour where
  id : ℕ
  name : String
  country : String
  region : String
  isActive : Bool
  deriving Repr, DecidableEq

/-- A row of the `booking_tours` table (one tour selection of a booking). -/
structure BookingTour where
  id : ℕ
  bookingId : ℕ
  tourId : ℕ
  deriving Repr, DecidableEq

/-- A row of the `booking_locations` table (one location selection of a
booking, attributed to a tour). -/
structure BookingLocation where
  id : ℕ
  bookingId : ℕ
  locationId : ℕ
  tourId : ℕ
  deriving Repr, DecidableEq

/-! ## `get_dashboard_overview` (analytics_service.py lines 19-68) -/

/-- The `extract(month) == m AND extract(year) == y` count used for the
current-month and previous-month queries. -/
def bookingsInMonth (bs : List Booking) (y : ℤ) (m : ℕ) : ℕ :=
  (bs.filter (fun b => b.createdMonth == m && b.createdYear == y)).length

/-- The overview dict returned by `get_dashboard_overview` (fields that do
not depend on the wall-clock 30-day window). -/
structure Overview where
  totalBookings : ℕ
  totalCustomers : ℕ
  thisMonthBookings : ℕ
  bookingGrowthPercentage : ℚ
  deriving Repr, DecidableEq

/-- `get_dashboard_overview`, with `now` supplied as the current calendar
(year, month).  Mirrors the source: `last_month = current_month - 1 if
current_month > 1 else 12`, growth defined only when last month's count is
positive, rounded to 2 decimals. -/
def getDashboardOverview (bs : List Booking) (currentYear : ℤ) (currentMonth : ℕ) :
    Overview :=
  let totalBookings := bs.length
  let totalCustomers := (bs.map (·.customerEmail)).dedup.length
  let thisMonthBookings := bookingsInMonth bs currentYear currentMonth
  let lastMonth := if currentMonth > 1 then currentMonth - 1 else 12
  let lastMonthYear := if currentMonth > 1 then currentYear else currentYear - 1
  let lastMonthBookings := bookingsInMonth bs lastMonthYear lastMonth
  let bookingGrowth : ℚ :=
    if lastMonthBookings > 0 then
      (((thisMonthBookings : ℚ) - (lastMonthBookings : ℚ)) / (lastMonthBookings : ℚ)) * 100
    else 0
  { totalBookings, totalCustomers, thisMonthBookings,
    bookingGrowthPercentage := round2 bookingGrowth }

/-! ## Age bucketing in `get_customer_demographics` (lines 212-232) -/

/-- The SQL `case` expression that buckets `customer_age`. -/
def ageGroup (age : ℤ) : String :=
  if age < 25 then "Under 25"
  else if age < 35 then "25-34"
  else if age < 45 then "35-44"
  else if age < 55 then "45-54"
  else if age < 65 then "55-64"
  else "65+"

def ageGroupLabels : List String :=
  ["Under 25", "25-34", "35-44", "45-54", "55-64", "65+"]

/-- The `age_distribution` query: rows with non-null `customer_age`,
grouped by `age_group`, with the booking count of each group.
(The rows appear once per group present in the data.) -/
def ageDistribution (bs : List Booking) : List (String × ℕ) :=
  let ages := bs.filterMap (·.customerAge)
  (ages.map ageGroup).dedup.map
    (fun g => (g, (ages.filter (fun a => ageGroup a == g)).length))

/-- Booking with given created (year, month) and defaults elsewhere; used to
build concrete datasets. -/
def mkBookingYM (y : ℤ) (m : ℕ) : Booking :=
  { id := 0, customerEmail := "", customerAge := none, customerCountry := none,
    preferredDate := none, createdDay := 0, createdYear := y, createdMonth := m }

/-! ## Generic counting helpers -/

theorem dedup_map_sum {α : Type} [DecidableEq α] (l : List α) (f : α → ℕ) :
    ((l.dedup).map f).sum = ∑ g in l.toFinset, f g := by
  have h : (∑ g in l.toFinset, f g) = (Multiset.map f ((l : Multiset α).dedup)).sum := rfl
  rw [h, Multiset.coe_dedup]
  rfl

theorem dedup_sum_count {α : Type} [DecidableEq α] (l : List α) :
    ((l.dedup).map (fun g => l.count g)).sum = l.length := by
  rw [dedup_map_sum]
  simp [Multiset.toFinset_sum_count_eq (l : Multiset α)]

theorem dedup_sum_mul_count (l : List ℕ) :
    ((l.dedup).map (fun k => k * l.count k)).sum = l.sum := by
  rw [dedup_map_sum]
  have h2 := Finset.sum_multiset_map_count (l : Multiset ℕ) (id)
  simp at h2
  rw [h2]
  exact Finset.sum_congr rfl (fun x _ => Nat.mul_comm _ _)

theorem length_filter_eq_count_map {α β : Type} [DecidableEq β]
    (l : List α) (f : α → β) (g : β) :
    (l.filter (fun a => f a == g)).length = (l.map f).count g := by
  induction l with
  | nil => rfl
  | cons a t ih =>
    by_cases h : f a = g <;> simp [List.filter_cons, List.count_cons, h, ih]

/-! ## `get_seasonal_patterns` (lines 240-259), monthly part -/

structure MonthlyPattern where
  month : ℕ
  bookingCount : ℕ
  aboveAverage : Bool
  deriving Repr, DecidableEq

/-- The window `AVG(COUNT(id)) OVER ()` of the `monthly_patterns` query:
the mean of the per-group booking counts over the month groups actually
present in the data (months with no bookings produce no group row). -/
def avgMonthlyBookings (bs : List Booking) : ℚ :=
  (((bs.map (·.createdMonth)).dedup.map
      (fun m => ((bs.map (·.createdMonth)).count m : ℚ))).sum) /
    (((bs.map (·.createdMonth)).dedup.length : ℚ))

/-- The `monthly_patterns` query: bookings grouped by
`extract('month', created_at)`; each group row carries its booking count and
the comparison with the window average.  `ORDER BY month` is omitted here
since it does not affect any per-month field. -/
def monthlyPatterns (bs : List Booking) : List MonthlyPattern :=
  (bs.map (·.createdMonth)).dedup.map (fun m =>
    { month := m, bookingCount := (bs.map (·.createdMonth)).count m,
      aboveAverage :=
        decide (((bs.map (·.createdMonth)).count m : ℚ) > avgMonthlyBookings bs) })

theorem sum_counts_cast (months : List ℕ) :
    ((months.dedup.map (fun m => (months.count m : ℚ))).sum) = (months.length : ℚ) := by
  have h1 : months.dedup.map (fun m => (months.count m : ℚ)) =
      (months.dedup.map (fun m => months.count m)).map (fun n : ℕ => (n : ℚ)) := by
    rw [List.map_map]
    rfl
  rw [h1, ← Nat.cast_list_sum, dedup_sum_count]

/-! ## `get_time_based_insights` (lines 341-388), lead-time part -/

/-- Python's `min` over a list; the `[]` case is unreachable in the source
(guarded by `if lead_time_analysis`). -/
def pyMin : List ℤ → ℤ
  | [] => 0
  | x :: xs => xs.foldl min x

/-- Python's `max` over a list; the `[]` case is unreachable in the source. -/
def pyMax : List ℤ → ℤ
  | [] => 0
  | x :: xs => xs.foldl max x

/-- The `lead_time_analysis` list: bookings with non-null `preferred_date`,
contributing `(preferred_date.date() - created_at.date()).days` when that
difference is non-negative. -/
def leadTimeAnalysis (bs : List Booking) : List ℤ :=
  (bs.filter (fun b => b.preferredDate.isSome)).filterMap (fun b =>
    match b.preferredDate with
    | some p => if 0 ≤ p - b.createdDay then some (p - b.createdDay) else none
    | none => none)

/-- The `lead_time_insights` dict of `get_time_based_insights`. -/
structure LeadTimeInsights where
  averageLeadTimeDays : ℚ
  minLeadTime : ℤ
  maxLeadTime : ℤ
  totalAnalyzed : ℕ
  deriving Repr, DecidableEq

/-- `get_time_based_insights`, lead-time part: mean (rounded to 1 decimal),
min, max and sample count, all zero/default when no valid samples exist. -/
def getTimeBasedInsights (bs : List Booking) : LeadTimeInsights :=
  { averageLeadTimeDays :=
      round1 (if (leadTimeAnalysis bs).isEmpty then 0
        else ((leadTimeAnalysis bs).sum : ℚ) / ((leadTimeAnalysis bs).length : ℚ))
    minLeadTime := if (leadTimeAnalysis bs).isEmpty then 0 else pyMin (leadTimeAnalysis bs)
    maxLeadTime := if (leadTimeAnalysis bs).isEmpty then 0 else pyMax (leadTimeAnalysis bs)
    totalAnalyzed := (leadTimeAnalysis bs).length }

theorem round1_zero : round1 0 = 0 := by
  have h : pyRound 0 = 0 := by
    unfold pyRound
    norm_num
  simp [round1, h]

theorem foldl_min_le_init (xs : List ℤ) (a : ℤ) : xs.foldl min a ≤ a := by
  induction xs generalizing a with
  | nil => exact le_refl a
  | cons y ys ih =>
    have h := ih (min a y)
    exact le_trans h (min_le_left a y)

theorem foldl_min_le_mem (xs : List ℤ) (a x : ℤ) (hx : x ∈ xs) :
    xs.foldl min a ≤ x := by
  induction xs generalizing a with
  | nil => cases hx
  | cons y ys ih =>
    rcases List.mem_cons.mp hx with rfl | hmem
    · exact le_trans (foldl_min_le_init ys (min a x)) (min_le_right a x)
    · exact ih (min a y) hmem

theorem init_le_foldl_max (xs : List ℤ) (a : ℤ) : a ≤ xs.foldl max a := by
  induction xs generalizing a with
  | nil => exact le_refl a
  | cons y ys ih =>
    have h := ih (max a y)
    exact le_trans (le_max_left a y) h

theorem mem_le_foldl_max (xs : List ℤ) (a x : ℤ) (hx : x ∈ xs) :
    x ≤ xs.foldl max a := by
  induction xs generalizing a with
  | nil => cases hx
  | cons y ys ih =>
    rcases List.mem_cons.mp hx with rfl | hmem
    · exact le_trans (le_max_right a x) (init_le_foldl_max ys (max a x))
    · exact ih (max a y) hmem

theorem pyMin_le {l : List ℤ} {x : ℤ} (hx : x ∈ l) : pyMin l ≤ x := by
  cases l with
  | nil => cases hx
  | cons y ys =>
    rcases List.mem_cons.mp hx with rfl | hmem
    · exact foldl_min_le_init ys x
    · exact foldl_min_le_mem ys y x hmem

theorem le_pyMax {l : List ℤ} {x : ℤ} (hx : x ∈ l) : x ≤ pyMax l := by
  cases l with
  | nil => cases hx
  | cons y ys =>
    rcases List.mem_cons.mp hx with rfl | hmem
    · exact init_le_foldl_max ys x
    · exact mem_le_foldl_max ys y x hmem

theorem mul_length_le_sum (l : List ℤ) (a : ℤ) (h : ∀ x ∈ l, a ≤ x) :
    a * l.length ≤ l.sum := by
  induction l with
  | nil => simp
  | cons y ys ih =>
    have h1 := h y (List.mem_cons_self y ys)
    have h2 := ih (fun x hx => h x (List.mem_cons_of_mem y hx))
    simp only [List.sum_cons, List.length_cons]
    push_cast
    nlinarith

theorem sum_le_mul_length (l : List ℤ) (a : ℤ) (h : ∀ x ∈ l, x ≤ a) :
    l.sum ≤ a * l.length := by
  induction l with
  | nil => simp
  | cons y ys ih =>
    have h1 := h y (List.mem_cons_self y ys)
    have h2 := ih (fun x hx => h x (List.mem_cons_of_mem y hx))
    simp only [List.sum_cons, List.length_cons]
    push_cast
    nlinarith

/-! ## `get_booking_complexity_analysis` (lines 285-339) -/

/-- `COUNT(booking_tours.id)` for one booking row of the `tours_per_booking`
outer-join subquery (0 when the booking has no tour selections). -/
def tourCountOf (bts : List BookingTour) (bid : ℕ) : ℕ :=
  (bts.filter (fun bt => bt.bookingId == bid)).length

/-- `COUNT(booking_locations.id)` for one row of `locations_per_booking`. -/
def locationCountOf (bls : List BookingLocation) (bid : ℕ) : ℕ :=
  (bls.filter (fun bl => bl.bookingId == bid)).length

/-- The `tours_per_booking` subquery: one row per booking (grouped by
`Booking.id`) carrying its tour-selection count. -/
def toursPerBooking (bs : List Booking) (bts : List BookingTour) : List ℕ :=
  bs.map (fun b => tourCountOf bts b.id)

/-- The `locations_per_booking` subquery. -/
def locationsPerBooking (bs : List Booking) (bls : List BookingLocation) : List ℕ :=
  bs.map (fun b => locationCountOf bls b.id)

/-- The `tour_complexity` histogram: subquery rows grouped by count, with
each distinct count's frequency.  `ORDER BY` omitted (it does not affect
bucket contents). -/
def tourDistribution (bs : List Booking) (bts : List BookingTour) : List (ℕ × ℕ) :=
  (toursPerBooking bs bts).dedup.map
    (fun k => (k, (toursPerBooking bs bts).count k))

/-- The `location_complexity` histogram. -/
def locationDistribution (bs : List Booking) (bls : List BookingLocation) :
    List (ℕ × ℕ) :=
  (locationsPerBooking bs bls).dedup.map
    (fun k => (k, (locationsPerBooking bs bls).count k))

/-- The two scalar averages of `get_booking_complexity_analysis`, computed
from the base-table counts (`db.query(...).count()`), 0 when there are no
bookings, rounded to 2 decimals. -/
def complexityAverages (bs : List Booking) (bts : List BookingTour)
    (bls : List BookingLocation) : ℚ × ℚ :=
  (round2 (if bs.length > 0 then (bts.length : ℚ) / (bs.length : ℚ) else 0),
   round2 (if bs.length > 0 then (bls.length : ℚ) / (bs.length : ℚ) else 0))

theorem sum_map_add_distrib {α : Type} (l : List α) (f g : α → ℕ) :
    (l.map (fun x => f x + g x)).sum = (l.map f).sum + (l.map g).sum := by
  induction l with
  | nil => rfl
  | cons a t ih =>
    simp only [List.map_cons, List.sum_cons, ih]
    omega

theorem sum_indicator_eq_count {α : Type} (l : List α) (f : α → ℕ) (k : ℕ) :
    (l.map (fun x => if f x == k then 1 else 0)).sum = (l.map f).count k := by
  induction l with
  | nil => rfl
  | cons a t ih =>
    simp only [List.map_cons, List.sum_cons, List.count_cons, ih]
    by_cases h : f a = k <;> simp [h] <;> omega

/-- Each row of a table whose `booking_id` is a foreign key into a
primary-keyed booking list is counted exactly once across the per-booking
counts: the per-booking counts sum to the table size. -/
theorem perBookingCounts_sum (bs : List Booking) (keys : List ℕ)
    (hnd : (bs.map (·.id)).Nodup)
    (hfk : ∀ k ∈ keys, k ∈ bs.map (·.id)) :
    (bs.map (fun b => (keys.filter (fun k => k == b.id)).length)).sum = keys.length := by
  induction keys with
  | nil => simp
  | cons k rest ih =>
    have hfk' : ∀ k' ∈ rest, k' ∈ bs.map (·.id) :=
      fun k' hk' => hfk k' (List.mem_cons_of_mem k hk')
    have hsplit : bs.map (fun b => (((k :: rest)).filter (fun k' => k' == b.id)).length) =
        bs.map (fun b => (if b.id == k then 1 else 0) +
          (rest.filter (fun k' => k' == b.id)).length) := by
      apply List.map_congr_left
      intro b _
      rw [List.filter_cons]
      by_cases h : k = b.id <;> simp [h] <;> omega
    rw [hsplit, sum_map_add_distrib, sum_indicator_eq_count,
      List.count_eq_one_of_mem hnd (hfk k (List.mem_cons_self k rest)),
      ih hfk', List.length_cons]
    omega

theorem toursPerBooking_sum (bs : List Booking) (bts : List BookingTour)
    (hnd : (bs.map (·.id)).Nodup)
    (hfk : ∀ bt ∈ bts, bt.bookingId ∈ bs.map (·.id)) :
    (toursPerBooking bs bts).sum = bts.length := by
  have h := perBookingCounts_sum bs (bts.map (·.bookingId)) hnd
    (by
      intro k hk
      rw [List.mem_map] at hk
      obtain ⟨bt, hbt, rfl⟩ := hk
      exact hfk bt hbt)
  rw [List.length_map] at h
  rw [← h]
  apply congrArg
  apply List.map_congr_left
  intro b _
  unfold tourCountOf
  rw [← List.length_map ((bts.filter (fun bt => bt.bookingId == b.id))) (·.bookingId)]
  congr 1
  rw [List.filter_map]
  rfl

theorem locationsPerBooking_sum (bs : List Booking) (bls : List BookingLocation)
    (hnd : (bs.map (·.id)).Nodup)
    (hfk : ∀ bl ∈ bls, bl.bookingId ∈ bs.map (·.id)) :
    (locationsPerBooking bs bls).sum = bls.length := by
  have h := perBookingCounts_sum bs (bls.map (·.bookingId)) hnd
    (by
      intro k hk
      rw [List.mem_map] at hk
      obtain ⟨bl, hbl, rfl⟩ := hk
      exact hfk bl hbl)
  rw [List.length_map] at h
  rw [← h]
  apply congrArg
  apply List.map_congr_left
  intro b _
  unfold locationCountOf
  rw [← List.length_map ((bls.filter (fun bl => bl.bookingId == b.id))) (·.bookingId)]
  congr 1
  rw [List.filter_map]
  rfl

/-! ## `get_popular_tours` (lines 140-184) -/

/-- One output row of `get_popular_tours`. -/
structure TourPopRow where
  id : ℕ
  name : String
  country : String
  region : String
  bookingCount : ℕ
  totalLocationsBooked : ℕ
  avgLocationsPerBooking : ℚ
  deriving Repr, DecidableEq

/-- The FROM/JOIN rows of the `popular_tours` query restricted to one tour:
`tours JOIN booking_tours` (inner, on the relationship `tour_id`), then
`LEFT OUTER JOIN booking_locations ON booking_locations.booking_id =
booking_tours.booking_id AND booking_locations.tour_id = tours.id`.  Each
tour selection appears once per matching location selection of the same
booking and tour, or once with NULL when there is none. -/
def tourJoinRows (t : Tour) (bts : List BookingTour) (bls : List BookingLocation) :
    List (BookingTour × Option BookingLocation) :=
  (bts.filter (fun bt => bt.tourId == t.id)).bind (fun bt =>
    match bls.filter (fun bl => bl.bookingId == bt.bookingId && bl.tourId == t.id) with
    | [] => [(bt, none)]
    | ls => ls.map (fun bl => (bt, some bl)))

/-- `get_popular_tours`: one group per tour present in the join (the
grouping key contains the tour's primary key, so with unique tour ids each
tour yields at most one group row), with
* `booking_count = COUNT(booking_tours.id)`: non-NULL `booking_tours.id`
  occurrences over the joined rows, i.e. the number of joined rows;
* `total_locations_booked = COUNT(booking_locations.id)`: joined rows with
  a non-NULL location selection;
* `avg_locations_per_booking = AVG(COUNT(booking_locations.id)) OVER
  (PARTITION BY tours.id)`: the grouped result has exactly one row per
  tour id, so the window average equals that row's own
  `COUNT(booking_locations.id)`, rounded to 2 decimals;
ordered by `booking_count` descending (modelled by a stable insertion sort)
and truncated to `limit`. -/
def getPopularTours (tours : List Tour) (bts : List BookingTour)
    (bls : List BookingLocation) (limit : ℕ) : List TourPopRow :=
  ((tours.filterMap (fun t =>
    if (tourJoinRows t bts bls).isEmpty then none
    else some
      { id := t.id, name := t.name, country := t.country, region := t.region,
        bookingCount := (tourJoinRows t bts bls).length,
        totalLocationsBooked :=
          ((tourJoinRows t bts bls).filter (fun r => r.2.isSome)).length,
        avgLocationsPerBooking :=
          round2 ((((tourJoinRows t bts bls).filter (fun r => r.2.isSome)).length : ℚ)) }
    )).insertionSort (fun a b => b.bookingCount ≤ a.bookingCount)).take limit

theorem pyRound_intCast (n : ℤ) : pyRound ((n : ℤ) : ℚ) = n := by
  unfold pyRound
  dsimp only
  rw [Int.floor_intCast]
  norm_num

theorem round2_intCast (n : ℤ) : round2 ((n : ℤ) : ℚ) = (n : ℚ) := by
  unfold round2
  have h : (100 : ℚ) * ((n : ℤ) : ℚ) = ((100 * n : ℤ) : ℚ) := by push_cast; ring
  rw [h, pyRound_intCast]
  push_cast
  ring

/-- Concrete popular-tours dataset: one tour, selected by two bookings;
booking 1 picked one location of the tour, booking 2 picked three. -/
def c1Tours : List Tour := [⟨1, "T", "C", "R", true⟩]

def c1Bts : List BookingTour := [⟨1, 1, 1⟩, ⟨2, 2, 1⟩]

def c1Bls : List BookingLocation :=
  [⟨1, 1, 10, 1⟩, ⟨2, 2, 11, 1⟩, ⟨3, 2, 12, 1⟩, ⟨4, 2, 13, 1⟩]

/-! ## Cache store (`BookingAnalytics` model; `cache_analytics` and
`get_cached_analytics`, lines 404-509) -/

/-- JSON-compatible payload values.  `metric_data` is stored through
`json.dumps` and read back through `json.loads`, which compose to the
identity on such values, so the store is modelled as holding the value
itself. -/
inductive Json where
  | null
  | bool (b : Bool)
  | num (q : ℚ)
  | str (s : String)
  | arr (xs : List Json)
  | obj (fields : List (String × Json))
  deriving Repr

/-- Python dict assignment `d[k] = v` on an association-list object:
replace the first binding of `k`, or append a new one. -/
def setKey (fields : List (String × Json)) (k : String) (v : Json) :
    List (String × Json) :=
  match fields with
  | [] => [(k, v)]
  | (k', v') :: rest =>
    if k' == k then (k, v) :: rest else (k', v') :: setKey rest k v

/-- A row of the `booking_analytics` table.  `lastCalculated` is a UTC
timestamp in seconds.  `metricValue` is kept as the raw extracted payload
value (the service stores whatever the heuristic finds). -/
structure CacheEntry where
  metricName : String
  metricValue : Json
  metricData : Json
  lastCalculated : ℤ
  deriving Repr

/-- The numeric-summary heuristic of `cache_analytics` (lines 440-449).
In the source the `elif isinstance(metric_data, list)` arm is nested inside
the `isinstance(metric_data, dict)` branch and is therefore unreachable:
a list payload never enters the outer branch, so the initial
`metric_value = 0` survives for it. -/
def extractMetricValue (d : Json) : Json :=
  match d with
  | .obj fields =>
    match fields.lookup "total_bookings" with
    | some v => v
    | none =>
      match fields.lookup "total_customers" with
      | some v => v
      | none => .num 0
  | _ => .num 0

/-- `query(BookingAnalytics).filter(metric_name == name).first()` followed
by a field update (entry found) or `session.add` (not found): upsert by
key.  `updValue = none` leaves `metric_value` unchanged on update, as the
comprehensive branch of the source does; `createValue` is used when a new
row is created. -/
def upsertEntry (st : List CacheEntry) (name : String) (updValue : Option Json)
    (createValue : Json) (data : Json) (now : ℤ) : List CacheEntry :=
  match st with
  | [] => [⟨name, createValue, data, now⟩]
  | e :: rest =>
    if e.metricName == name then
      ⟨e.metricName, updValue.getD e.metricValue, data, now⟩ :: rest
    else
      e :: upsertEntry rest name updValue createValue data now

/-- The staged session mutations of `cache_analytics` (lines 410-463),
applied at commit: upsert the comprehensive entry (whose `metric_value` is
only set at creation, to the number of metrics), then one
`metric_<name>` entry per payload item other than `generated_at`, valued
by the heuristic. -/
def cacheAnalyticsWrites (st : List CacheEntry)
    (analyticsData : List (String × Json)) (now : ℤ) : List CacheEntry :=
  (analyticsData.filter (fun p => p.1 != "generated_at")).foldl
    (fun acc p =>
      upsertEntry acc ("metric_" ++ p.1) (some (extractMetricValue p.2))
        (extractMetricValue p.2) p.2 now)
    (upsertEntry st "comprehensive_analytics" none
      (.num (analyticsData.length : ℚ)) (.obj analyticsData) now)

/-- `cache_analytics`: the whole body runs inside `try ... except`; all
session mutations are staged until `self.db.commit()` at the end.  `fails`
injects an exception raised at any point before the commit completes; the
handler calls `self.db.rollback()` (restoring the pre-call store), logs,
and swallows the exception.  Returns the persisted store and whether an
exception escaped to the caller (never). -/
def cacheAnalytics (st : List CacheEntry) (analyticsData : List (String × Json))
    (now : ℤ) (fails : Bool) : List CacheEntry × Bool :=
  if fails then (st, false)
  else (cacheAnalyticsWrites st analyticsData now, false)

/-- The `cache_info` dict added to a cache hit (lines 493-497). -/
def cacheInfo (lastCalculated now : ℤ) : Json :=
  .obj [("cached_at", .num lastCalculated),
        ("cache_age_hours", .num (((now - lastCalculated : ℤ) : ℚ) / 3600)),
        ("is_cached", .bool true)]

/-- `get_cached_analytics(max_age_hours)` (lines 471-509): look up the
first `comprehensive_analytics` entry with
`last_calculated >= now - max_age_hours`; on a hit, return its payload
with `cache_info` added; otherwise return `None`.  A stored payload that
is not a dict would make `analytics_data["cache_info"] = ...` raise, which
the outer `except` turns into `None` — the non-`.obj` match arm. -/
def getCachedAnalytics (st : List CacheEntry) (maxAgeHours : ℤ) (now : ℤ) :
    Option Json :=
  match st.find? (fun e => e.metricName == "comprehensive_analytics" &&
      decide (now - 3600 * maxAgeHours ≤ e.lastCalculated)) with
  | some e =>
    match e.metricData with
    | .obj fields =>
      some (.obj (setKey fields "cache_info" (cacheInfo e.lastCalculated now)))
    | _ => none
  | none => none

/-- The comprehensive route (`analytics.py` lines 193-220), fresh path:
computes the payload, calls `cache_analytics` (which never raises), and
returns the freshly computed payload regardless of the cache outcome. -/
def getComprehensiveFresh (st : List CacheEntry)
    (analyticsData : List (String × Json)) (now : ℤ) (fails : Bool) :
    Json × List CacheEntry :=
  (.obj analyticsData, (cacheAnalytics st analyticsData now fails).1)

/-! ## Cache-store lemmas -/

theorem metric_name_ne (x : String) : "metric_" ++ x ≠ "comprehensive_analytics" := by
  intro h
  have h2 : ("metric_" ++ x).data.head? =
      ("comprehensive_analytics" : String).data.head? := by rw [h]
  rw [String.data_append] at h2
  simp at h2

theorem foldl_preserve {α β : Type} (P : β → Prop) (f : β → α → β) (l : List α)
    (b : β) (hb : P b) (hstep : ∀ b' a, a ∈ l → P b' → P (f b' a)) :
    P (l.foldl f b) := by
  induction l generalizing b with
  | nil => exact hb
  | cons a t ih =>
    exact ih (f b a) (hstep b a (List.mem_cons_self a t) hb)
      (fun b' x hx h => hstep b' x (List.mem_cons_of_mem a hx) h)

theorem upsert_exists (st : List CacheEntry) (name : String) (uv : Option Json)
    (cv D : Json) (t : ℤ) :
    ∃ e ∈ upsertEntry st name uv cv D t, e.metricName = name := by
  induction st with
  | nil => exact ⟨⟨name, cv, D, t⟩, List.mem_cons_self _ _, rfl⟩
  | cons h rest ih =>
    unfold upsertEntry
    by_cases hh : h.metricName = name
    · rw [if_pos (by simp [hh])]
      exact ⟨⟨h.metricName, uv.getD h.metricValue, D, t⟩, List.mem_cons_self _ _, hh⟩
    · rw [if_neg (by simp [hh])]
      obtain ⟨e, he, hc⟩ := ih
      exact ⟨e, List.mem_cons_of_mem h he, hc⟩

theorem upsert_all (st : List CacheEntry) (name : String) (uv : Option Json)
    (cv D : Json) (t : ℤ) :
    (st.map (·.metricName)).Nodup →
      ∀ e ∈ upsertEntry st name uv cv D t, e.metricName = name →
        e.metricData = D ∧ e.lastCalculated = t := by
  induction st with
  | nil =>
    intro _ e he _
    rw [upsertEntry, List.mem_singleton] at he
    subst he
    exact ⟨rfl, rfl⟩
  | cons h rest ih =>
    intro hnd e he hc
    rw [List.map_cons, List.nodup_cons] at hnd
    obtain ⟨hnotin, hnd'⟩ := hnd
    unfold upsertEntry at he
    by_cases hh : h.metricName = name
    · rw [if_pos (by simp [hh])] at he
      rcases List.mem_cons.mp he with rfl | hr
      · exact ⟨rfl, rfl⟩
      · exfalso
        apply hnotin
        rw [hh, ← hc]
        exact List.mem_map.mpr ⟨e, hr, rfl⟩
    · rw [if_neg (by simp [hh])] at he
      rcases List.mem_cons.mp he with rfl | hr
      · exact absurd hc hh
      · exact ih hnd' e hr hc

theorem mem_of_mem_upsert_ne (st : List CacheEntry) (name : String)
    (uv : Option Json) (cv D : Json) (t : ℤ) (e : CacheEntry)
    (he : e ∈ upsertEntry st name uv cv D t) (hne : e.metricName ≠ name) :
    e ∈ st := by
  induction st with
  | nil =>
    rw [upsertEntry, List.mem_singleton] at he
    subst he
    exact absurd rfl hne
  | cons h rest ih =>
    unfold upsertEntry at he
    by_cases hh : h.metricName = name
    · rw [if_pos (by simp [hh])] at he
      rcases List.mem_cons.mp he with rfl | hr
      · exact absurd hh hne
      · exact List.mem_cons_of_mem h hr
    · rw [if_neg (by simp [hh])] at he
      rcases List.mem_cons.mp he with rfl | hr
      · exact List.mem_cons_self _ _
      · exact List.mem_cons_of_mem h (ih hr)

theorem mem_upsert_of_mem_ne (st : List CacheEntry) (name : String)
    (uv : Option Json) (cv D : Json) (t : ℤ) (e : CacheEntry)
    (he : e ∈ st) (hne : e.metricName ≠ name) :
    e ∈ upsertEntry st name uv cv D t := by
  induction st with
  | nil => cases he
  | cons h rest ih =>
    unfold upsertEntry
    by_cases hh : h.metricName = name
    · rw [if_pos (by simp [hh])]
      rcases List.mem_cons.mp he with rfl | hr
      · exact absurd hh hne
      · exact List.mem_cons_of_mem _ hr
    · rw [if_neg (by simp [hh])]
      rcases List.mem_cons.mp he with rfl | hr
      · exact List.mem_cons_self _ _
      · exact List.mem_cons_of_mem h (ih hr)

/-- After `cache_analytics`' staged writes, some entry is named
`comprehensive_analytics`, and every such entry holds the full payload with
the write timestamp (names in the store are unique, per the DB constraint). -/
theorem writes_hex_hall (st : List CacheEntry) (payload : List (String × Json))
    (t : ℤ) (hnd : (st.map (·.metricName)).Nodup) :
    (∃ e ∈ cacheAnalyticsWrites st payload t,
      e.metricName = "comprehensive_analytics") ∧
    (∀ e ∈ cacheAnalyticsWrites st payload t,
      e.metricName = "comprehensive_analytics" →
        e.metricData = .obj payload ∧ e.lastCalculated = t) := by
  unfold cacheAnalyticsWrites
  refine foldl_preserve
    (fun acc : List CacheEntry =>
      (∃ e ∈ acc, e.metricName = "comprehensive_analytics") ∧
      (∀ e ∈ acc, e.metricName = "comprehensive_analytics" →
        e.metricData = .obj payload ∧ e.lastCalculated = t))
    _ _ _ ⟨?_, ?_⟩ ?_
  · exact upsert_exists st "comprehensive_analytics" none _ _ t
  · exact upsert_all st "comprehensive_analytics" none _ _ t hnd
  · rintro acc p _ ⟨⟨e0, he0, hc0⟩, hall⟩
    constructor
    · refine ⟨e0, mem_upsert_of_mem_ne acc _ _ _ _ t e0 he0 ?_, hc0⟩
      rw [hc0]
      exact fun h => metric_name_ne p.1 h.symm
    · intro e he hc
      refine hall e (mem_of_mem_upsert_ne acc _ _ _ _ t e he ?_) hc
      rw [hc]
      exact fun h => metric_name_ne p.1 h.symm

theorem find?_comp_fresh (l : List CacheEntry) (D : Json) (t c : ℤ)
    (hex : ∃ e ∈ l, e.metricName = "comprehensive_analytics")
    (hall : ∀ e ∈ l, e.metricName = "comprehensive_analytics" →
      e.metricData = D ∧ e.lastCalculated = t)
    (hf : c ≤ t) :
    ∃ e, l.find? (fun e => e.metricName == "comprehensive_analytics" &&
        decide (c ≤ e.lastCalculated)) = some e ∧
      e.metricData = D ∧ e.lastCalculated = t := by
  induction l with
  | nil =>
    obtain ⟨e, he, _⟩ := hex
    cases he
  | cons h rest ih =>
    by_cases hn : h.metricName = "comprehensive_analytics"
    · obtain ⟨hD, ht⟩ := hall h (List.mem_cons_self _ _) hn
      refine ⟨h, ?_, hD, ht⟩
      rw [List.find?_cons_of_pos]
      simp [hn, ht, hf]
    · have hex' : ∃ e ∈ rest, e.metricName = "comprehensive_analytics" := by
        obtain ⟨e, he, hc⟩ := hex
        rcases List.mem_cons.mp he with rfl | hr
        · exact absurd hc hn
        · exact ⟨e, hr, hc⟩
      have hall' : ∀ e ∈ rest, e.metricName = "comprehensive_analytics" →
          e.metricData = D ∧ e.lastCalculated = t :=
        fun e he hc => hall e (List.mem_cons_of_mem h he) hc
      obtain ⟨e, hfind, hD, ht⟩ := ih hex' hall'
      refine ⟨e, ?_, hD, ht⟩
      rw [List.find?_cons_of_neg]
      · exact hfind
      · simp [hn]

theorem find?_comp_stale (l : List CacheEntry) (t c : ℤ)
    (hall : ∀ e ∈ l, e.metricName = "comprehensive_analytics" →
      e.lastCalculated = t)
    (hst : ¬ c ≤ t) :
    l.find? (fun e => e.metricName == "comprehensive_analytics" &&
      decide (c ≤ e.lastCalculated)) = none := by
  rw [List.find?_eq_none]
  intro x hx hq
  simp only [Bool.and_eq_true, beq_iff_eq, decide_eq_true_eq] at hq
  obtain ⟨h1, h2⟩ := hq
  rw [hall x hx h1] at h2
  exact hst h2

/-! ## Claim theorems -/

/-- C3: `overview().booking_growth_percentage` equals
`round2 ((current - previous) / previous * 100)` when the previous calendar
month's booking count is nonzero, and `0` whenever it is zero, regardless of
the current month's count.  The growth expression is a total function on `ℚ`
guarded by the zero test, so no division-by-zero failure can occur. -/
theorem C3_overview_growth (bs : List Booking) (cy : ℤ) (cm : ℕ) :
    (bookingsInMonth bs (if cm > 1 then cy else cy - 1)
        (if cm > 1 then cm - 1 else 12) = 0 →
      (getDashboardOverview bs cy cm).bookingGrowthPercentage = 0) ∧
    (0 < bookingsInMonth bs (if cm > 1 then cy else cy - 1)
        (if cm > 1 then cm - 1 else 12) →
      (getDashboardOverview bs cy cm).bookingGrowthPercentage =
        round2 (((bookingsInMonth bs cy cm : ℚ) -
            (bookingsInMonth bs (if cm > 1 then cy else cy - 1)
              (if cm > 1 then cm - 1 else 12) : ℚ)) /
          (bookingsInMonth bs (if cm > 1 then cy else cy - 1)
            (if cm > 1 then cm - 1 else 12) : ℚ) * 100)) := by
  unfold getDashboardOverview
  dsimp only
  constructor
  · intro h
    rw [h]
    simp [round2_zero]
  · intro h
    rw [if_pos h]

/-- Witness for C3 at a concrete dataset: two bookings in December 2024, one
in January 2025, evaluated with `now` = January 2025. -/
theorem C3_overview_growth_witness :
    0 < bookingsInMonth [mkBookingYM 2024 12, mkBookingYM 2024 12, mkBookingYM 2025 1]
        (if 1 > 1 then 2025 else 2025 - 1) (if 1 > 1 then 1 - 1 else 12) ∧
    (getDashboardOverview [mkBookingYM 2024 12, mkBookingYM 2024 12, mkBookingYM 2025 1]
        2025 1).bookingGrowthPercentage =
      round2 (((bookingsInMonth [mkBookingYM 2024 12, mkBookingYM 2024 12, mkBookingYM 2025 1]
            2025 1 : ℚ) -
          (bookingsInMonth [mkBookingYM 2024 12, mkBookingYM 2024 12, mkBookingYM 2025 1]
            (if 1 > 1 then 2025 else 2025 - 1) (if 1 > 1 then 1 - 1 else 12) : ℚ)) /
        (bookingsInMonth [mkBookingYM 2024 12, mkBookingYM 2024 12, mkBookingYM 2025 1]
          (if 1 > 1 then 2025 else 2025 - 1) (if 1 > 1 then 1 - 1 else 12) : ℚ) * 100) :=
  ⟨by decide,
   (C3_overview_growth [mkBookingYM 2024 12, mkBookingYM 2024 12, mkBookingYM 2025 1]
      2025 1).2 (by decide)⟩

/-- C9: every age value falls into exactly one of the six fixed buckets, with
the documented upper-exclusive boundaries, and the age histogram counts
exactly the non-null ages (null ages are excluded). -/
theorem C9_age_buckets :
    (∀ a : ℤ,
      (ageGroup a = "Under 25" ↔ a < 25) ∧
      (ageGroup a = "25-34" ↔ 25 ≤ a ∧ a < 35) ∧
      (ageGroup a = "35-44" ↔ 35 ≤ a ∧ a < 45) ∧
      (ageGroup a = "45-54" ↔ 45 ≤ a ∧ a < 55) ∧
      (ageGroup a = "55-64" ↔ 55 ≤ a ∧ a < 65) ∧
      (ageGroup a = "65+" ↔ 65 ≤ a) ∧
      ageGroup a ∈ ageGroupLabels) ∧
    (∀ bs : List Booking,
      ((ageDistribution bs).map (·.2)).sum = (bs.filterMap (·.customerAge)).length) := by
  constructor
  · intro a
    unfold ageGroup
    split_ifs with h1 h2 h3 h4 h5 <;>
      refine ⟨?_, ?_, ?_, ?_, ?_, ?_, ?_⟩ <;>
      simp [ageGroupLabels] <;> omega
  · intro bs
    unfold ageDistribution
    dsimp only
    rw [List.map_map]
    have hcomp :
        ((fun p : String × ℕ => p.2) ∘
          fun g => (g, ((bs.filterMap (·.customerAge)).filter
            (fun a => ageGroup a == g)).length)) =
        fun g => ((bs.filterMap (·.customerAge)).filter (fun a => ageGroup a == g)).length :=
      rfl
    rw [hcomp]
    have heach :
        (fun g => ((bs.filterMap (·.customerAge)).filter (fun a => ageGroup a == g)).length) =
        (fun g => ((bs.filterMap (·.customerAge)).map ageGroup).count g) := by
      funext g
      exact length_filter_eq_count_map _ _ _
    rw [heach, dedup_sum_count, List.length_map]

/-- Concrete seasonal dataset: two January bookings, four February bookings. -/
def seasonalBs : List Booking :=
  [mkBookingYM 2024 1, mkBookingYM 2024 1,
   mkBookingYM 2024 2, mkBookingYM 2024 2, mkBookingYM 2024 2, mkBookingYM 2024 2]

theorem avgMonthlyBookings_seasonalBs : avgMonthlyBookings seasonalBs = 3 := by
  have hm : seasonalBs.map (·.createdMonth) = [1, 1, 2, 2, 2, 2] := rfl
  have hd : ([1, 1, 2, 2, 2, 2] : List ℕ).dedup = [1, 2] := by decide
  have hc1 : ([1, 1, 2, 2, 2, 2] : List ℕ).count 1 = 2 := rfl
  have hc2 : ([1, 1, 2, 2, 2, 2] : List ℕ).count 2 = 4 := rfl
  unfold avgMonthlyBookings
  rw [hm, hd]
  simp only [List.map_cons, List.map_nil, hc1, hc2, List.sum_cons, List.sum_nil,
    List.length_cons, List.length_nil]
  norm_num

/-- C4 counterexample: with two January and four February bookings the code
flags January as *not* above average (the mean over the two present months
is 3), although January's count 2 does exceed the twelve-bucket mean
`6 / 12 = length / 12` prescribed by the claim. -/
theorem C4_counterexample :
    ((monthlyPatterns seasonalBs).find? (fun p => p.month == 1)).map
        (fun p => (p.bookingCount, p.aboveAverage)) = some (2, false) ∧
    (seasonalBs.length : ℚ) / 12 < 2 := by
  have hfind : (monthlyPatterns seasonalBs).find? (fun p => p.month == 1) =
      some ⟨1, 2, decide ((((seasonalBs.map (·.createdMonth)).count 1 : ℚ)) >
        avgMonthlyBookings seasonalBs)⟩ := rfl
  have hc : (seasonalBs.map (·.createdMonth)).count 1 = 2 := rfl
  have hb : decide ((((seasonalBs.map (·.createdMonth)).count 1 : ℚ)) >
      avgMonthlyBookings seasonalBs) = false := by
    rw [hc, avgMonthlyBookings_seasonalBs]
    exact decide_eq_false (by norm_num)
  rw [hfind, hb]
  refine ⟨rfl, ?_⟩
  norm_num [seasonalBs]

/-- C4 (amended): each month entry of `seasonal_patterns` is flagged
`above_average` exactly when its booking count exceeds the mean booking
count taken over the months that actually have bookings (months with zero
bookings are absent from the grouping and do not enter the mean). -/
theorem C4_monthly_above_average (bs : List Booking) (p : MonthlyPattern)
    (hp : p ∈ monthlyPatterns bs) :
    p.aboveAverage = true ↔
      (bs.length : ℚ) / ((bs.map (·.createdMonth)).dedup.length : ℚ) <
        (p.bookingCount : ℚ) := by
  unfold monthlyPatterns at hp
  rw [List.mem_map] at hp
  obtain ⟨m, hm, rfl⟩ := hp
  dsimp only
  rw [decide_eq_true_iff, gt_iff_lt]
  unfold avgMonthlyBookings
  rw [sum_counts_cast, List.length_map]

/-- Witness for C4 at the concrete seasonal dataset: February's entry. -/
theorem C4_monthly_above_average_witness :
    (MonthlyPattern.mk 2 4 true).aboveAverage = true ↔
      (seasonalBs.length : ℚ) / ((seasonalBs.map (·.createdMonth)).dedup.length : ℚ) <
        ((MonthlyPattern.mk 2 4 true).bookingCount : ℚ) := by
  refine C4_monthly_above_average seasonalBs (MonthlyPattern.mk 2 4 true) ?_
  have hcnt : (seasonalBs.map (·.createdMonth)).count 2 = 4 := rfl
  have hb : decide ((((seasonalBs.map (·.createdMonth)).count 2 : ℚ)) >
      avgMonthlyBookings seasonalBs) = true := by
    rw [hcnt, avgMonthlyBookings_seasonalBs]
    exact decide_eq_true (by norm_num)
  have hlist : monthlyPatterns seasonalBs =
      [⟨1, 2, decide ((((seasonalBs.map (·.createdMonth)).count 1 : ℚ)) >
          avgMonthlyBookings seasonalBs)⟩,
       ⟨2, 4, decide ((((seasonalBs.map (·.createdMonth)).count 2 : ℚ)) >
          avgMonthlyBookings seasonalBs)⟩] := rfl
  rw [hlist, hb]
  simp

theorem leadTimeAnalysis_cons (b : Booking) (t : List Booking) :
    leadTimeAnalysis (b :: t) =
      (match b.preferredDate with
       | some p => if 0 ≤ p - b.createdDay
           then (p - b.createdDay) :: leadTimeAnalysis t
           else leadTimeAnalysis t
       | none => leadTimeAnalysis t) := by
  cases hp : b.preferredDate with
  | none => simp [leadTimeAnalysis, List.filter_cons, hp]
  | some p =>
    simp only [leadTimeAnalysis, List.filter_cons, hp, Option.isSome_some, decide_True,
      if_true, List.filterMap_cons]
    split_ifs with h <;> simp [hp, h]

/-- Booking with given created/preferred dates (absolute day numbers) and
defaults elsewhere. -/
def mkBookingLead (created : ℤ) (pref : Option ℤ) : Booking :=
  { id := 0, customerEmail := "", customerAge := none, customerCountry := none,
    preferredDate := pref, createdDay := created, createdYear := 0, createdMonth := 1 }

/-- Concrete lead-time dataset: one valid sample (lead 10), one negative
lead (excluded), one null preferred date (excluded). -/
def leadBs : List Booking :=
  [mkBookingLead 0 (some 10), mkBookingLead 5 (some 0), mkBookingLead 0 none]

/-- C7: a booking contributes to the lead-time statistics iff its preferred
date is non-null and the day difference to its creation date is
non-negative; the report is (rounded mean, min, max, count), all zero when
no valid samples exist, and `min ≤ mean ≤ max` whenever
`total_analyzed > 0`. -/
theorem C7_lead_time (bs : List Booking) :
    ((leadTimeAnalysis bs).length =
      (bs.filter (fun b =>
        match b.preferredDate with
        | some p => decide (0 ≤ p - b.createdDay)
        | none => false)).length) ∧
    (leadTimeAnalysis bs = [] →
      getTimeBasedInsights bs = ⟨0, 0, 0, 0⟩) ∧
    (0 < (getTimeBasedInsights bs).totalAnalyzed →
      ((getTimeBasedInsights bs).minLeadTime : ℚ) ≤
          (getTimeBasedInsights bs).averageLeadTimeDays ∧
        (getTimeBasedInsights bs).averageLeadTimeDays ≤
          ((getTimeBasedInsights bs).maxLeadTime : ℚ)) := by
  refine ⟨?_, ?_, ?_⟩
  · induction bs with
    | nil => rfl
    | cons b t ih =>
      rw [leadTimeAnalysis_cons, List.filter_cons]
      cases hp : b.preferredDate with
      | none => simpa [hp] using ih
      | some p =>
        by_cases h : 0 ≤ p - b.createdDay <;> simp [hp, h, ih]
  · intro h
    simp [getTimeBasedInsights, h, round1_zero]
  · intro h
    have hne : leadTimeAnalysis bs ≠ [] := by
      intro he
      rw [getTimeBasedInsights] at h
      simp [he] at h
    have hie : (leadTimeAnalysis bs).isEmpty = false := by
      cases hl : leadTimeAnalysis bs with
      | nil => exact absurd hl hne
      | cons x xs => rfl
    have hlen : 0 < (leadTimeAnalysis bs).length := List.length_pos.mpr hne
    have hsumlo := mul_length_le_sum (leadTimeAnalysis bs) (pyMin (leadTimeAnalysis bs))
      (fun x hx => pyMin_le hx)
    have hsumhi := sum_le_mul_length (leadTimeAnalysis bs) (pyMax (leadTimeAnalysis bs))
      (fun x hx => le_pyMax hx)
    have hlenq : (0 : ℚ) < ((leadTimeAnalysis bs).length : ℚ) := by exact_mod_cast hlen
    have hq1 : ((pyMin (leadTimeAnalysis bs) : ℤ) : ℚ) ≤
        ((leadTimeAnalysis bs).sum : ℚ) / ((leadTimeAnalysis bs).length : ℚ) := by
      rw [le_div_iff₀ hlenq]
      exact_mod_cast hsumlo
    have hq2 : ((leadTimeAnalysis bs).sum : ℚ) / ((leadTimeAnalysis bs).length : ℚ) ≤
        ((pyMax (leadTimeAnalysis bs) : ℤ) : ℚ) := by
      rw [div_le_iff₀ hlenq]
      exact_mod_cast hsumhi
    have hr := round1_mem_Icc hq1 hq2
    simp only [getTimeBasedInsights, hie, Bool.false_eq_true, if_false]
    exact hr

/-- Witness for C7 at the concrete lead-time dataset. -/
theorem C7_lead_time_witness :
    ((getTimeBasedInsights leadBs).minLeadTime : ℚ) ≤
        (getTimeBasedInsights leadBs).averageLeadTimeDays ∧
      (getTimeBasedInsights leadBs).averageLeadTimeDays ≤
        ((getTimeBasedInsights leadBs).maxLeadTime : ℚ) :=
  (C7_lead_time leadBs).2.2 (by decide)

/-- Booking with a given id and defaults elsewhere. -/
def mkBookingId (i : ℕ) : Booking :=
  { id := i, customerEmail := "", customerAge := none, customerCountry := none,
    preferredDate := none, createdDay := 0, createdYear := 0, createdMonth := 1 }

/-- Concrete complexity dataset: booking 1 selects two tours and one
location; booking 2 selects no tours and two locations. -/
def cxBs : List Booking := [mkBookingId 1, mkBookingId 2]

def cxBts : List BookingTour := [⟨1, 1, 5⟩, ⟨2, 1, 6⟩]

def cxBls : List BookingLocation := [⟨1, 1, 7, 5⟩, ⟨2, 2, 8, 5⟩, ⟨3, 2, 9, 5⟩]

/-- C8: each scalar average of `complexity()` equals the total selection
count divided by the total booking count rounded to 2 decimals, which
equals the histogram-weighted sum divided by total bookings; both averages
are `(0, 0)` with no bookings; and the zero-count bucket appears in the
histogram whenever a booking has no selections.  Hypotheses: booking ids
are unique (primary key) and the selection tables reference existing
bookings (foreign keys). -/
theorem C8_complexity (bs : List Booking) (bts : List BookingTour)
    (bls : List BookingLocation)
    (hnd : (bs.map (·.id)).Nodup)
    (hfkT : ∀ bt ∈ bts, bt.bookingId ∈ bs.map (·.id))
    (hfkL : ∀ bl ∈ bls, bl.bookingId ∈ bs.map (·.id)) :
    (bs ≠ [] →
      (complexityAverages bs bts bls).1 = round2 ((bts.length : ℚ) / (bs.length : ℚ)) ∧
      (complexityAverages bs bts bls).1 =
        round2 (((((tourDistribution bs bts).map (fun p => p.1 * p.2)).sum : ℕ) : ℚ) /
          (bs.length : ℚ)) ∧
      (complexityAverages bs bts bls).2 = round2 ((bls.length : ℚ) / (bs.length : ℚ)) ∧
      (complexityAverages bs bts bls).2 =
        round2 (((((locationDistribution bs bls).map (fun p => p.1 * p.2)).sum : ℕ) : ℚ) /
          (bs.length : ℚ))) ∧
    (bs = [] → complexityAverages bs bts bls = (0, 0)) ∧
    (0 ∈ toursPerBooking bs bts →
      (0, (toursPerBooking bs bts).count 0) ∈ tourDistribution bs bts) ∧
    (0 ∈ locationsPerBooking bs bls →
      (0, (locationsPerBooking bs bls).count 0) ∈ locationDistribution bs bls) := by
  have htw : ((tourDistribution bs bts).map (fun p => p.1 * p.2)).sum = bts.length := by
    unfold tourDistribution
    rw [List.map_map]
    have hc : ((fun p : ℕ × ℕ => p.1 * p.2) ∘
        fun k => (k, (toursPerBooking bs bts).count k)) =
        fun k => k * (toursPerBooking bs bts).count k := rfl
    rw [hc, dedup_sum_mul_count, toursPerBooking_sum bs bts hnd hfkT]
  have hlw : ((locationDistribution bs bls).map (fun p => p.1 * p.2)).sum = bls.length := by
    unfold locationDistribution
    rw [List.map_map]
    have hc : ((fun p : ℕ × ℕ => p.1 * p.2) ∘
        fun k => (k, (locationsPerBooking bs bls).count k)) =
        fun k => k * (locationsPerBooking bs bls).count k := rfl
    rw [hc, dedup_sum_mul_count, locationsPerBooking_sum bs bls hnd hfkL]
  refine ⟨?_, ?_, ?_, ?_⟩
  · intro hne
    have hpos : bs.length > 0 := List.length_pos.mpr hne
    refine ⟨?_, ?_, ?_, ?_⟩
    · simp only [complexityAverages, if_pos hpos]
    · rw [htw]
      simp only [complexityAverages, if_pos hpos]
    · simp only [complexityAverages, if_pos hpos]
    · rw [hlw]
      simp only [complexityAverages, if_pos hpos]
  · intro h
    subst h
    simp [complexityAverages, round2_zero]
  · intro h0
    exact List.mem_map.mpr ⟨0, List.mem_dedup.mpr h0, rfl⟩
  · intro h0
    exact List.mem_map.mpr ⟨0, List.mem_dedup.mpr h0, rfl⟩

/-- Witness for C8 at the concrete complexity dataset. -/
theorem C8_complexity_witness :
    (complexityAverages cxBs cxBts cxBls).1 =
      round2 ((cxBts.length : ℚ) / (cxBs.length : ℚ)) :=
  ((C8_complexity cxBs cxBts cxBls (by decide) (by decide) (by decide)).1
    (by decide)).1

/-- C1 (code-bug evaluation): on the concrete dataset the query reports
`booking_count = 4` — the number of join rows, inflated by the location
fan-out — although the tour has only 2 tour-selection records; and it
reports `avg_locations_per_booking = 4` — the bare location total, since
the window average runs over a single-row partition — although
4 locations over 2 bookings rounds to 2. -/
theorem C1_popular_tours_eval :
    (getPopularTours c1Tours c1Bts c1Bls 10).map
        (fun r => (r.id, r.bookingCount, r.totalLocationsBooked,
          r.avgLocationsPerBooking)) = [(1, 4, 4, (4 : ℚ))] ∧
    (c1Bts.filter (fun bt => bt.tourId == 1)).length = 2 ∧
    round2 ((4 : ℚ) / 2) = 2 := by
  have h0 : getPopularTours c1Tours c1Bts c1Bls 10 =
      [{ id := 1, name := "T", country := "C", region := "R",
         bookingCount := 4, totalLocationsBooked := 4,
         avgLocationsPerBooking := round2 (((4 : ℕ) : ℚ)) }] := rfl
  have hr4 : round2 (4 : ℚ) = 4 := by
    have h : (4 : ℚ) = (((4 : ℤ)) : ℚ) := by norm_num
    rw [h, round2_intCast]
  have hr2 : round2 ((4 : ℚ) / 2) = 2 := by
    have h : ((4 : ℚ) / 2) = (((2 : ℤ)) : ℚ) := by norm_num
    rw [h, round2_intCast]
    norm_num
  refine ⟨?_, rfl, hr2⟩
  rw [h0]
  simp [hr4]

/-- C2 counterexample: an immediate `get_cached_analytics` after a
`cache_analytics` write (elapsed time 0, max age 1 hour, larger than the
elapsed time) does not return the payload identically: the returned dict
carries an added `cache_info` key. -/
theorem C2_counterexample :
    getCachedAnalytics (cacheAnalytics [] [("a", Json.num 1)] 0 false).1 1 0 ≠
      some (Json.obj [("a", Json.num 1)]) := by
  intro hEq
  have h : getCachedAnalytics (cacheAnalytics [] [("a", Json.num 1)] 0 false).1 1 0 =
      some (Json.obj [("a", Json.num 1), ("cache_info", cacheInfo 0 0)]) := rfl
  rw [h] at hEq
  simp at hEq

/-- C2 (amended): after `cache_analytics`, a `get_cached_analytics` whose
max-age window exceeds the elapsed time returns the stored payload with a
`cache_info` annotation key set (all original keys and values unchanged,
in order); with a window smaller than the elapsed time it returns `None`
(a miss, not an error).  Store names are unique per the DB constraint. -/
theorem C2_cache_round_trip (st : List CacheEntry) (payload : List (String × Json))
    (t now maxAge : ℤ) (hnd : (st.map (·.metricName)).Nodup) :
    (now - t < 3600 * maxAge →
      getCachedAnalytics (cacheAnalytics st payload t false).1 maxAge now =
        some (.obj (setKey payload "cache_info" (cacheInfo t now)))) ∧
    (3600 * maxAge < now - t →
      getCachedAnalytics (cacheAnalytics st payload t false).1 maxAge now = none) := by
  obtain ⟨hex, hall⟩ := writes_hex_hall st payload t hnd
  have hca : (cacheAnalytics st payload t false).1 = cacheAnalyticsWrites st payload t :=
    rfl
  constructor
  · intro hfresh
    have hf : now - 3600 * maxAge ≤ t := by linarith
    obtain ⟨e, hfind, hD, ht⟩ :=
      find?_comp_fresh (cacheAnalyticsWrites st payload t) (.obj payload) t
        (now - 3600 * maxAge) hex hall hf
    rw [hca]
    unfold getCachedAnalytics
    rw [hfind]
    simp only [hD, ht]
  · intro hstale
    have hst : ¬ (now - 3600 * maxAge ≤ t) := by linarith
    rw [hca]
    unfold getCachedAnalytics
    rw [find?_comp_stale (cacheAnalyticsWrites st payload t) t (now - 3600 * maxAge)
      (fun e he hc => (hall e he hc).2) hst]

/-- Witness for C2: a fresh hit half an hour after the write. -/
theorem C2_cache_round_trip_witness :
    getCachedAnalytics (cacheAnalytics [] [("a", Json.num 1)] 0 false).1 1 1800 =
      some (.obj (setKey [("a", Json.num 1)] "cache_info" (cacheInfo 0 1800))) :=
  (C2_cache_round_trip [] [("a", Json.num 1)] 0 1800 1 (by decide)).1 (by decide)

/-- C5 (code-bug evaluation): the heuristic takes the `total_bookings`,
else `total_customers`, field of a dict payload, but a list-shaped payload
gets 0, not its element count: the `isinstance(metric_data, list)` arm is
nested inside the `isinstance(metric_data, dict)` branch and unreachable. -/
theorem C5_extract_value_eval :
    extractMetricValue (.obj [("total_bookings", .num 7)]) = .num 7 ∧
    extractMetricValue (.obj [("x", .null), ("total_customers", .num 3)]) = .num 3 ∧
    extractMetricValue (.obj [("x", .null)]) = .num 0 ∧
    extractMetricValue (.arr [.num 1, .num 2, .num 3]) = .num 0 ∧
    extractMetricValue (.arr [.num 1, .num 2, .num 3]) ≠
      .num ((([Json.num 1, Json.num 2, Json.num 3]).length : ℚ)) := by
  refine ⟨rfl, rfl, rfl, rfl, ?_⟩
  intro h
  rw [show extractMetricValue (.arr [.num 1, .num 2, .num 3]) = .num 0 from rfl] at h
  simp at h

/-- C10: `cache_analytics` never propagates an exception; a run in which
any step raises rolls back to exactly the pre-call store; a successful run
persists the staged writes; and the comprehensive route returns the
freshly computed payload in both cases. -/
theorem C10_cache_write_back (st : List CacheEntry)
    (payload : List (String × Json)) (now : ℤ) :
    ((cacheAnalytics st payload now true).2 = false ∧
      (cacheAnalytics st payload now false).2 = false) ∧
    (cacheAnalytics st payload now true).1 = st ∧
    (cacheAnalytics st payload now false).1 = cacheAnalyticsWrites st payload now ∧
    (∀ fails, (getComprehensiveFresh st payload now fails).1 = .obj payload) :=
  ⟨⟨rfl, rfl⟩, rfl, rfl, fun _ => rfl⟩

/-! ## `export_analytics_csv` (`analytics.py` lines 308-343) -/

/-- An HTTP outcome of the export endpoint: a streaming CSV response, or an
`HTTPException` with its status code and detail. -/
inductive ExportResult where
  | ok (metric : String)
  | httpError (status : ℕ) (detail : String)
  deriving Repr, DecidableEq

/-- The body of the `try` block: dispatch on the metric name, raising
`HTTPException(400, ...)` for an unrecognized one.  The CSV text built for
the recognized metrics plays no role in the dispatch and is omitted. -/
def exportTryBody (metric : String) : Except (ℕ × String) String :=
  if metric == "trends" then .ok metric
  else if metric == "locations" then .ok metric
  else if metric == "tours" then .ok metric
  else if metric == "demographics" then .ok metric
  else .error
    (400, "Invalid metric. Choose from: trends, locations, tours, demographics")

/-- `export_analytics_csv`: the entire body, including the 400 raise, runs
inside `try`; `except Exception` catches every exception —
`fastapi.HTTPException` subclasses `Exception` — and replaces it with
`HTTPException(500, "Failed to export analytics data")`. -/
def exportAnalyticsCsv (metric : String) : ExportResult :=
  match exportTryBody metric with
  | .ok m => .ok m
  | .error _ => .httpError 500 "Failed to export analytics data"

/-- C6 (code-bug evaluation): for an unrecognized metric the handler
constructs the 400 validation error, but the catch-all `except Exception`
swallows it, so the caller receives the uniform 500 internal-error
response; no input ever produces a 400-class response. -/
theorem C6_export_invalid_metric :
    exportTryBody "bogus" =
      .error (400,
        "Invalid metric. Choose from: trends, locations, tours, demographics") ∧
    exportAnalyticsCsv "bogus" = .httpError 500 "Failed to export analytics data" ∧
    ∀ metric s, exportAnalyticsCsv metric ≠ .httpError 400 s := by
  refine ⟨rfl, rfl, ?_⟩
  intro metric s h
  unfold exportAnalyticsCsv at h
  cases hb : exportTryBody metric with
  | ok m =>
    rw [hb] at h
    simp at h
  | error p =>
    rw [hb] at h
    simp at h

end TourAnalytics
